import Mathlib

/-!
Verification of the SwissRe medical-summarization microservice
(`src/swiss_re/swiss_re.py`, `src/database/database_connection.py`).

The Python functions are shallowly embedded as Lean functions:
strings are `String`/`List Char`, parsed JSON values are the `Json`
inductive below, the HTTP transport is a small outcome datatype, and
file reading is factored out into explicit parameters.
-/

namespace SwissRe

/-- Whitespace characters matched by Python's regex class `\s` and stripped by
`str.strip()`, restricted to the ASCII range (the data handled by this code
base is ASCII). -/
def isPySpace (c : Char) : Bool :=
  c = ' ' || c = '\t' || c = '\n' || c = '\r' || c = Char.ofNat 11 || c = Char.ofNat 12

/-- The single-quote (apostrophe) character, written via its code point. -/
def sq : Char := Char.ofNat 39

/-- Python `s.replace(a, b)` for a one-character pattern `a` and one-character
replacement `b`: replace every occurrence of `a` by `b`. -/
def pyReplaceChar (a b : Char) (l : List Char) : List Char :=
  l.map fun c => if c = a then b else c

/-- Helper for `re.sub(r'(?<!\\)"', '', s)`: scan the string keeping track of
the previously scanned character of the original string (`none` at the start);
a double quote is dropped exactly when that previous character is not a
backslash. -/
def removeUnescQuotesAux : Option Char → List Char → List Char
  | _, [] => []
  | prev, c :: rest =>
    if c = '"' ∧ prev ≠ some '\\' then removeUnescQuotesAux (some c) rest
    else c :: removeUnescQuotesAux (some c) rest

/-- `re.sub(r'(?<!\\)"', '', s)`: remove every double quote not immediately
preceded by a backslash. -/
def removeUnescQuotes (l : List Char) : List Char :=
  removeUnescQuotesAux none l

/-- `re.sub(r'\r?\n', ' ', s)`: each `\r\n` pair and each lone `\n` becomes a
single space; a `\r` not followed by `\n` is left in place. -/
def newlineToSpace : List Char → List Char
  | [] => []
  | '\r' :: '\n' :: rest => ' ' :: newlineToSpace rest
  | '\n' :: rest => ' ' :: newlineToSpace rest
  | c :: rest => c :: newlineToSpace rest

/-- Helper for `re.sub(r'\s+', ' ', s)`: the Boolean records whether the
previously scanned character was whitespace (in which case further whitespace
belongs to an already-replaced run and is dropped). -/
def collapseWSAux : Bool → List Char → List Char
  | _, [] => []
  | prevWS, c :: rest =>
    if isPySpace c then
      if prevWS then collapseWSAux true rest
      else ' ' :: collapseWSAux true rest
    else c :: collapseWSAux false rest

/-- `re.sub(r'\s+', ' ', s)`: every maximal run of whitespace becomes a single
space. -/
def collapseWS (l : List Char) : List Char :=
  collapseWSAux false l

/-- Drop leading whitespace (the left half of Python `str.strip()`). -/
def stripLeft (l : List Char) : List Char :=
  l.dropWhile isPySpace

/-- Drop trailing whitespace (the right half of Python `str.strip()`). -/
def stripRight (l : List Char) : List Char :=
  (l.reverse.dropWhile isPySpace).reverse

/-- Python `str.strip()` (ASCII whitespace). -/
def pyStrip (l : List Char) : List Char :=
  stripRight (stripLeft l)

/-- Python `str.strip()` on `String`. -/
def pyStripS (s : String) : String :=
  String.mk (pyStrip s.data)

/-- Evaluating `re.sub ...` inside `clean_string` raises `NameError` whatever
the argument: `swiss_re.py` never imports `re` (its imports are `json`,
`requests`, `os`, `datetime` and `TOKEN`), so the name `re` is unbound at
the call site.  `none` models the raised exception. -/
def reSubNameError (_s : List Char) : Option (List Char) := none

/-- The inner `clean_string` helper of `json_to_plain_string`, as the staged
module actually executes it.  The first two replacements,
`s.replace('\"', '"')` and `s.replace("\'", "'")`, run and are identity
no-ops (in Python the escaped literals `'\"'` and `"\'"` denote the plain
quote characters themselves); the first `re.sub` call then raises
`NameError`, so the function returns no value for any input and the
exception aborts the whole flattening.  The `.map` continuation is dead
code: `reSubNameError` never produces a value. -/
def clean_string (s : String) : Option String :=
  (reSubNameError (pyReplaceChar sq sq (pyReplaceChar '"' '"' s.data))).map String.mk

/-- The cleaning pass `clean_string` was clearly meant to perform, and the
one the spec describes: the source's `replace` and `re.sub` calls executed as
written, as if `import re` were present.  It documents the intended
behaviour next to the staged code's unconditional `NameError`
(see `clean_string`). -/
def clean_string_intended (s : String) : String :=
  String.mk (pyStrip (collapseWS (newlineToSpace (removeUnescQuotes
    (pyReplaceChar sq sq (pyReplaceChar '"' '"' s.data))))))

/-- Parsed JSON values as produced by Python's `json.load`.  Numbers are
restricted to integers: the repository's data uses only integer numbers and
floating point is out of scope. -/
inductive Json where
  | null
  | bool (b : Bool)
  | num (n : Int)
  | str (s : String)
  | arr (elems : List Json)
  | obj (pairs : List (String × Json))

/-- Helper for Python `str` on a natural number: pushes the decimal digits of
`n` onto `acc`.  The fuel argument (always at least the number of digits at
the call site) makes the recursion structural. -/
def natStrAux : Nat → Nat → List Char → List Char
  | 0, _, acc => acc
  | fuel + 1, n, acc =>
    if n < 10 then Nat.digitChar (n % 10) :: acc
    else natStrAux fuel (n / 10) (Nat.digitChar (n % 10) :: acc)

/-- Decimal digits of a natural number. -/
def natStr (n : Nat) : List Char :=
  natStrAux (n + 1) n []

/-- Python `str()` on an integer (the `else` branch of `recurse`, reached by
JSON numbers). -/
def intStr (i : Int) : String :=
  if i < 0 then String.mk ('-' :: natStr (-i).toNat) else String.mk (natStr i.toNat)

/-- Object keys in `recurse`: `str(k).replace("\n", " ")` — keys only have
newlines replaced, they do not go through `clean_string`. -/
def keyToken (k : String) : String :=
  String.mk (pyReplaceChar '\n' ' ' k.data)

mutual

/-- The `recurse` inner function of `json_to_plain_string`, rendered as the
list of parts it appends; `none` models an exception aborting the traversal
(raised by `clean_string` as soon as any string value is reached, since
`re` is never imported).  Dict pairs emit the key token, the recursively
flattened value, then the separator `", "`; list items are flattened in
order with no separator; `None` becomes `"None"`; booleans and numbers go
through Python `str` (`"True"`/`"False"` for booleans). -/
def recurse : Json → Option (List String)
  | .obj pairs => recurseObj pairs
  | .arr elems => recurseArr elems
  | .null => some ["None"]
  | .str s =>
    match clean_string s with
    | some cleaned => some [cleaned]
    | none => none
  | .bool b => some [if b then "True" else "False"]
  | .num n => some [intStr n]

/-- The `for item in obj` loop of `recurse` over a JSON array. -/
def recurseArr : List Json → Option (List String)
  | [] => some []
  | j :: rest =>
    match recurse j, recurseArr rest with
    | some a, some b => some (a ++ b)
    | _, _ => none

/-- The `for k, v in obj.items()` loop of `recurse` over a JSON object. -/
def recurseObj : List (String × Json) → Option (List String)
  | [] => some []
  | (k, v) :: rest =>
    match recurse v, recurseObj rest with
    | some a, some b => some (keyToken k :: (a ++ (", " :: b)))
    | _, _ => none

end

/-- The part list of `json_to_plain_string` after the final
`if parts and parts[-1] == ", ": parts.pop()` clean-up; `none` when the
traversal raised. -/
def flattenParts (j : Json) : Option (List String) :=
  (recurse j).map fun parts =>
    if parts.getLast? = some ", " then parts.dropLast else parts

/-- `json_to_plain_string` with the file reading factored out: it takes the
JSON value parsed from the file and returns `" ".join(parts)` after the
trailing-separator clean-up, or no value when a string value made
`clean_string` raise `NameError`. -/
def json_to_plain_string (j : Json) : Option String :=
  (flattenParts j).map (String.intercalate " ")

mutual

/-- `recurse` as it was meant to run: identical to `recurse` except that
string values go through `clean_string_intended`, as they would with
`import re` present. -/
def recurse_intended : Json → List String
  | .obj pairs => recurseObj_intended pairs
  | .arr elems => recurseArr_intended elems
  | .null => ["None"]
  | .str s => [clean_string_intended s]
  | .bool b => [if b then "True" else "False"]
  | .num n => [intStr n]

/-- The array loop of `recurse_intended`. -/
def recurseArr_intended : List Json → List String
  | [] => []
  | j :: rest => recurse_intended j ++ recurseArr_intended rest

/-- The object loop of `recurse_intended`. -/
def recurseObj_intended : List (String × Json) → List String
  | [] => []
  | (k, v) :: rest => keyToken k :: (recurse_intended v ++ (", " :: recurseObj_intended rest))

end

/-- The part list of the intended flattening after the trailing-separator
pop. -/
def flattenParts_intended (j : Json) : List String :=
  let parts := recurse_intended j
  if parts.getLast? = some ", " then parts.dropLast else parts

/-- The intended `json_to_plain_string` (with `import re` present). -/
def json_to_plain_string_intended (j : Json) : String :=
  String.intercalate " " (flattenParts_intended j)

/-- `add_prompt_to_text`: `prompt.strip() + "\n\n" + plain_text.strip()`. -/
def add_prompt_to_text (plain_text : String) (prompt : String) : String :=
  pyStripS prompt ++ "\n\n" ++ pyStripS plain_text

/-- The outcome of the `requests.post` call inside `fetch_summary`, as far as
the function can observe it: either a transport-level failure (any
`requests.exceptions.RequestException` raised by `post` itself) or a response
with an HTTP status code and a body.  The body is recorded as the result of
`response.json()`: `some j` when the body parses as JSON, `none` when parsing
raises `ValueError`. -/
inductive HttpOutcome where
  | transportError
  | response (status : Nat) (body : Option Json)

/-- `fetch_summary`, modelled on the observable outcome of the POST request.
`response.raise_for_status()` raises `requests.exceptions.HTTPError` exactly
for status codes in 400–599; that exception and any transport failure are
caught by the `RequestException` handler, and a `ValueError` from
`response.json()` by the second handler; both handlers set the result to the
empty dict. -/
def fetch_summary : HttpOutcome → Json
  | .transportError => Json.obj []
  | .response status body =>
    if 400 ≤ status ∧ status < 600 then Json.obj []
    else
      match body with
      | some data => data
      | none => Json.obj []

/-- The module-level `prompt` template of `swiss_re.py`, transcribed verbatim
(a plain Python string: it is not an f-string and is never passed to
`str.format`, so the placeholder stays literal text). -/
def prompt : String := "\nYou will be provided with medical data of a patient in the form of a single string containing key-value pairs separated by commas.\nThis data includes sensitive and detailed clinical information such as medical history, medications, diagnoses, laboratory results, and patient demographics.\nPlease generate a comprehensive, accurate, and clinically relevant summary based strictly on the provided data.\n\nImportant considerations:\n- DO NOT manipulate, infer beyond, or omit any patient information unless clearly redundant or explicitly unnecessary.\n- Preserve the accuracy of all clinical details, including diagnoses, medication dosages, lab values, and test results.\n- Pay close attention to demographic details such as age and gender, ensuring they are correctly captured.\n- Ensure references to historical or clinical context align as dictated from the summary.\n- Avoid speculative notes and conclusions unless strictly indicated.\n- However, DO NOT infer or assume alcohol or drug use, mental health disorders, or metabolic conditions unless they are explicitly documented in the input data.\n- The summary should be clear, factual, and aligned with the clinical and regulatory requirements of medical documentation.\n- Avoid assumptions or generalizations not explicitly supported by the input data.\n- Ensure medical terms are consistently and correctly used with appropriate clinical language.\n- Retain all medical codes or references provided as part of the clinical data.\n- Always ensure the current year is \x7bcurrent_year\x7d, ensure that timelines and references reflect this context.\n\nYour task:\n- Provide a detailed and faithful Clinical Summary of the patient based on this input.\n- Ensure the summary strictly adheres to the input data and carefully handles all critical and non-critical medical details without omission or error.\n"

/-- Python dictionary lookup `data.get(k)` on a parsed JSON value: `none`
models Python `None` (key absent, or the value not being a dict — parsed
objects have unique keys, so the first match is the match). -/
def dictGet (j : Json) (k : String) : Option Json :=
  match j with
  | .obj pairs => (pairs.find? (fun p => p.1 == k)).map (fun p => p.2)
  | _ => none

/-- Digits of a decimal numeral, or `none` if the character list is empty or
contains a non-digit. -/
def digitsToNat (l : List Char) : Option Nat :=
  if l ≠ [] ∧ l.all Char.isDigit then
    some (l.foldl (fun a c => a * 10 + (c.toNat - 48)) 0)
  else none

/-- Python `int(str)`: leading/trailing whitespace is ignored and an optional
sign precedes the digits; anything else raises (modelled as `none`). -/
def pyIntOfString (s : String) : Option Int :=
  match pyStrip s.data with
  | '-' :: ds => (digitsToNat ds).map (fun n => -(n : Int))
  | '+' :: ds => (digitsToNat ds).map (fun n => (n : Int))
  | ds => (digitsToNat ds).map (fun n => (n : Int))

/-- Python `int(x)` applied to the value of `data.get("responseTime")`:
`none` models the `TypeError`/`ValueError` raised when the value is `None`
(key absent) or not convertible. -/
def pyInt : Option Json → Option Int
  | some (.num n) => some n
  | some (.bool b) => some (if b then 1 else 0)
  | some (.str s) => pyIntOfString s
  | _ => none

/-- The record `store_content_response` writes to DynamoDB. -/
structure DynamoItem where
  id : String
  answer : Option Json
  references : Option Json
  responseTime : Int

/-- `store_content_response`, with the effects made explicit: `fs` maps a
file name to the JSON value parsed from that file (`none` when the file is
missing or does not parse), and `uid` is the freshly generated UUID.  The
function ignores its `json_data` argument and always reads the fixed file
name `"api_response.json"`; `none` models an exception propagating to the
caller (unreadable file, or `int(data.get("responseTime"))` raising). -/
def store_content_response (json_data : String) (fs : String → Option Json)
    (uid : String) : Option DynamoItem :=
  match fs "api_response.json" with
  | none => none
  | some data =>
    match pyInt (dictGet data "responseTime") with
    | none => none
    | some rt =>
      some { id := uid, answer := dictGet data "answer",
             references := dictGet data "references", responseTime := rt }

/-- The JSON value of the spec's flattening scenario:
`{"name": "John\nDoe", "age": 45, "notes": null}`. -/
def scenarioJson : Json :=
  Json.obj [("name", Json.str "John\nDoe"), ("age", Json.num 45), ("notes", Json.null)]

/-- A JSON object whose last (and only) value is itself an object:
`{"a": {"b": 1}}`. -/
def nestedExample : Json :=
  Json.obj [("a", Json.obj [("b", Json.num 1)])]

/-- The response body `{"answer": "ok", "references": []}` used by the spec's
SummaryClient scenarios. -/
def sampleBody : Json :=
  Json.obj [("answer", Json.str "ok"), ("references", Json.arr [])]

/-- Whether `pat` occurs as a contiguous subsequence of the character list. -/
def containsSeq (pat : List Char) : List Char → Bool
  | [] => pat.isEmpty
  | c :: rest => pat.isPrefixOf (c :: rest) || containsSeq pat rest

/-- Atomic JSON values: the ones whose flattening is a single token (not an
array and not an object). -/
def isAtom : Json → Bool
  | .null => true
  | .bool _ => true
  | .num _ => true
  | .str _ => true
  | .arr _ => false
  | .obj _ => false

/-- Every whitespace character in the list is a plain space (no newlines,
carriage returns, tabs, vertical tabs or form feeds remain). -/
def onlySpaceWS (l : List Char) : Bool :=
  l.all fun c => !(isPySpace c) || c = ' '

/-- No two adjacent whitespace characters anywhere in the list. -/
def noDoubleSpace : List Char → Bool
  | [] => true
  | [_] => true
  | a :: b :: rest => (!(isPySpace a && isPySpace b)) && noDoubleSpace (b :: rest)

/-- The first character, if any, is not whitespace. -/
def headNoWS : List Char → Bool
  | [] => true
  | c :: _ => !(isPySpace c)

/-- The last character, if any, is not whitespace. -/
def lastNoWS (l : List Char) : Bool :=
  headNoWS l.reverse

/-- C5 (code bug): the scenario input contains the string value
`"John\nDoe"`, so the staged program raises `NameError` inside
`clean_string` (`re` is never imported) and produces no flattened string at
all — the claim's output describes the intended behaviour, not the staged
code's.  Moreover, even the intended code (with `import re`) yields
`"name John Doe ,  age 45 ,  notes None"`: the `", "` part is joined with
single spaces on both sides, so two spaces follow each comma, not one as
the claim's expected string shows. -/
theorem C5_crash_on_scenario :
    json_to_plain_string scenarioJson = none ∧
      json_to_plain_string_intended scenarioJson = "name John Doe ,  age 45 ,  notes None" ∧
      ("name John Doe ,  age 45 ,  notes None" : String) ≠
        "name John Doe , age 45 , notes None" := by
  decide

/-- C1, counterexample: for the object `{"a": {"b": 1}}` — which contains no
string values, so the staged code does run to completion — the inner
object's pair and the outer pair each append a separator, but the pop runs
only once at the very end of the traversal, so the flattened output still
ends with the bare `", "` token (the joined string is `"a b 1 , "`). -/
theorem C1_counterexample :
    flattenParts nestedExample = some ["a", "b", "1", ", "] ∧
      json_to_plain_string nestedExample = some "a b 1 , " := by
  exact ⟨rfl, rfl⟩

set_option maxRecDepth 40000 in
/-- C2: the prompted input actually submitted to the endpoint contains the
literal placeholder text `{current_year}`: the template is a plain string,
never an f-string and never formatted, so no year is substituted (the
module's `current_year` value is computed but never used). -/
theorem C2_placeholder_sent :
    containsSeq ("\x7bcurrent_year\x7d").data (add_prompt_to_text "" prompt).data = true := by
  decide

/-- C4, counterexample: a terminal 300 response with a valid JSON body is a
non-2xx status, yet `fetch_summary` returns the parsed body rather than the
empty mapping — `raise_for_status` only raises for 4xx/5xx. -/
theorem C4_counterexample :
    fetch_summary (HttpOutcome.response 300 (some sampleBody)) = sampleBody ∧
      sampleBody ≠ Json.obj [] := by
  refine ⟨rfl, ?_⟩
  intro h
  injection h with h'
  exact List.noConfusion h'

/-- C4, amended: `fetch_summary` returns the empty mapping `{}` and raises
nothing on a transport failure, on any 4xx/5xx status (whatever the body),
and on a non-JSON body (whatever the status). -/
theorem C4_amended_empty :
    fetch_summary HttpOutcome.transportError = Json.obj [] ∧
      (∀ s b, 400 ≤ s → s < 600 → fetch_summary (HttpOutcome.response s b) = Json.obj []) ∧
      (∀ s, fetch_summary (HttpOutcome.response s none) = Json.obj []) := by
  refine ⟨rfl, ?_, ?_⟩
  · intro s b h1 h2
    simp only [fetch_summary]
    rw [if_pos ⟨h1, h2⟩]
  · intro s
    simp only [fetch_summary]
    split
    · rfl
    · rfl

/-- C4, witness: the spec's simulated-500 scenario, through the amended
theorem. -/
theorem C4_witness :
    fetch_summary (HttpOutcome.response 500 (some sampleBody)) = Json.obj [] :=
  C4_amended_empty.2.1 500 (some sampleBody) (by decide) (by decide)

/-- C8: any 2xx response whose body parses as JSON is returned unchanged by
`fetch_summary`. -/
theorem C8_success_passthrough (s : Nat) (j : Json) (h1 : 200 ≤ s) (h2 : s < 300) :
    fetch_summary (HttpOutcome.response s (some j)) = j := by
  simp only [fetch_summary]
  rw [if_neg (by omega)]

/-- C8, witness: the spec's scenario — a 200 response with body
`{"answer": "ok", "references": []}` comes back unchanged. -/
theorem C8_witness :
    fetch_summary (HttpOutcome.response 200 (some sampleBody)) = sampleBody :=
  C8_success_passthrough 200 sampleBody (by decide) (by decide)

/-- C9: `store_content_response` ignores its `json_data` argument — with the
file system and generated UUID fixed, any two values of `json_data` produce
identical behaviour and results, because the function always reads the fixed
file `api_response.json`. -/
theorem C9_ignores_json_data :
    ∀ (jd₁ jd₂ : String) (fs : String → Option Json) (uid : String),
      store_content_response jd₁ fs uid = store_content_response jd₂ fs uid :=
  fun _ _ _ _ => rfl

/-- C10: a JSON boolean reaches the `else: parts.append(str(obj))` branch of
`recurse` (there is no bool case before it), and Python renders `str(True)`
as `"True"` and `str(False)` as `"False"` — never the JSON spellings
`true`/`false`.  `recurse` is applied to every nested value, so this is the
token emitted at any nesting depth. -/
theorem C10_bool_tokens :
    ∀ b : Bool, recurse (Json.bool b) = some [if b then "True" else "False"] ∧
      recurse (Json.bool b) ≠ some ["true"] ∧ recurse (Json.bool b) ≠ some ["false"] := by
  decide

/-- C7: `add_prompt_to_text` returns exactly the stripped template, a blank
line, then the stripped flattened text. -/
theorem C7_concatenation :
    ∀ (plain_text tmpl : String),
      add_prompt_to_text plain_text tmpl = pyStripS tmpl ++ "\n\n" ++ pyStripS plain_text :=
  fun _ _ => rfl

/-- C3 (code bug): on the string value `a\"b` (one escaped quote) the staged
`clean_string` produces no value — its first `re.sub` raises `NameError`
because `re` is never imported — so no unescaping or quote removal ever
happens.  The part that does execute before the crash, the two `replace`
calls, is an identity no-op (Python `'\"'` and `'"'` denote the same
one-character string), and even the intended cleaning (with `import re`)
leaves the escaped sequence exactly as it was: the backslash is never
consumed. -/
theorem C3_crash_no_unescape :
    clean_string "a\\\"b" = none ∧
      pyReplaceChar sq sq (pyReplaceChar '"' '"' ("a\\\"b").data) = ("a\\\"b").data ∧
      clean_string_intended "a\\\"b" = "a\\\"b" := by
  decide


theorem pyReplaceChar_self (a : Char) (l : List Char) : pyReplaceChar a a l = l := by
  induction l with
  | nil => rfl
  | cons c rest ih =>
    simp only [pyReplaceChar, List.map_cons] at ih ⊢
    rw [ih]
    by_cases h : c = a
    · subst h; simp
    · simp [h]

theorem noDoubleSpace_tail {a : Char} {l : List Char} (h : noDoubleSpace (a :: l) = true) :
    noDoubleSpace l = true := by
  cases l with
  | nil => rfl
  | cons b rest =>
    simp only [noDoubleSpace, Bool.and_eq_true] at h
    exact h.2

theorem collapseWSAux_onlySpace (l : List Char) : ∀ b, onlySpaceWS (collapseWSAux b l) = true := by
  induction l with
  | nil => intro b; rfl
  | cons c rest ih =>
    intro b
    simp only [collapseWSAux]
    split
    · split
      · exact ih true
      · simp only [onlySpaceWS, List.all_cons, Bool.and_eq_true]
        exact ⟨by decide, ih true⟩
    · next hc =>
      simp only [onlySpaceWS, List.all_cons, Bool.and_eq_true]
      refine ⟨?_, ih false⟩
      simp_all

theorem collapseWSAux_noDouble (l : List Char) :
    ∀ b, noDoubleSpace (collapseWSAux b l) = true ∧
      (b = true → headNoWS (collapseWSAux b l) = true) := by
  induction l with
  | nil => intro b; exact ⟨rfl, fun _ => rfl⟩
  | cons c rest ih =>
    intro b
    simp only [collapseWSAux]
    split
    · next hws =>
      split
      · next hb =>
        exact ⟨(ih true).1, fun _ => (ih true).2 rfl⟩
      · next hb =>
        constructor
        · cases hX : collapseWSAux true rest with
          | nil => rfl
          | cons x xs =>
            have hhead := (ih true).2 rfl
            rw [hX] at hhead
            simp only [headNoWS] at hhead
            simp only [noDoubleSpace, Bool.and_eq_true]
            constructor
            · simp [hhead]
            · have h1 := (ih true).1
              rw [hX] at h1
              exact h1
        · intro hb'
          simp_all
    · next hws =>
      constructor
      · cases hX : collapseWSAux false rest with
        | nil => rfl
        | cons x xs =>
          simp only [noDoubleSpace, Bool.and_eq_true]
          constructor
          · simp_all
          · have h1 := (ih false).1
            rw [hX] at h1
            exact h1
      · intro _
        simp_all [headNoWS]

theorem onlySpaceWS_append_right {l₁ l₂ : List Char} (h : onlySpaceWS (l₁ ++ l₂) = true) :
    onlySpaceWS l₂ = true := by
  simp only [onlySpaceWS, List.all_append, Bool.and_eq_true] at h
  exact h.2

theorem onlySpaceWS_append_left {l₁ l₂ : List Char} (h : onlySpaceWS (l₁ ++ l₂) = true) :
    onlySpaceWS l₁ = true := by
  simp only [onlySpaceWS, List.all_append, Bool.and_eq_true] at h
  exact h.1

theorem noDoubleSpace_append_right :
    ∀ (l₁ l₂ : List Char), noDoubleSpace (l₁ ++ l₂) = true → noDoubleSpace l₂ = true := by
  intro l₁
  induction l₁ with
  | nil => intro l₂ h; exact h
  | cons a t ih => intro l₂ h; exact ih l₂ (noDoubleSpace_tail h)

theorem noDoubleSpace_append_left :
    ∀ (l₁ l₂ : List Char), noDoubleSpace (l₁ ++ l₂) = true → noDoubleSpace l₁ = true := by
  intro l₁
  induction l₁ with
  | nil => intro l₂ h; rfl
  | cons a t ih =>
    intro l₂ h
    cases t with
    | nil => rfl
    | cons b t' =>
      simp only [List.cons_append, noDoubleSpace, Bool.and_eq_true] at h ⊢
      exact ⟨h.1, ih l₂ h.2⟩

theorem headNoWS_dropWhile (l : List Char) : headNoWS (l.dropWhile isPySpace) = true := by
  induction l with
  | nil => rfl
  | cons c rest ih =>
    rw [List.dropWhile_cons]
    split
    · exact ih
    · next h => simp_all [headNoWS]

theorem stripRight_append_eq (l : List Char) :
    stripRight l ++ (l.reverse.takeWhile isPySpace).reverse = l := by
  simp only [stripRight]
  rw [← List.reverse_append, List.takeWhile_append_dropWhile, List.reverse_reverse]

theorem stripRight_headNoWS {l : List Char} (h : headNoWS l = true) :
    headNoWS (stripRight l) = true := by
  cases hX : stripRight l with
  | nil => rfl
  | cons a t =>
    have hdec := stripRight_append_eq l
    rw [hX] at hdec
    rw [← hdec] at h
    simpa [headNoWS, List.cons_append] using h

theorem stripRight_lastNoWS (l : List Char) : lastNoWS (stripRight l) = true := by
  simp only [lastNoWS, stripRight, List.reverse_reverse]
  exact headNoWS_dropWhile l.reverse

/-- Helper: the two identity replacements drop out of
`clean_string_intended`. -/
theorem clean_string_intended_data (s : String) :
    (clean_string_intended s).data =
      stripRight (stripLeft (collapseWS (newlineToSpace (removeUnescQuotes s.data)))) := by
  simp only [clean_string_intended, pyReplaceChar_self]
  rfl

/-- C6 (code bug): on `"John\r\n \t Doe"` — or any string with line breaks
or whitespace runs — the staged `clean_string` raises `NameError` before any
whitespace pass runs (`re` is never imported), producing no cleaned value at
all.  The claim describes the intended cleaning, which does satisfy it: for
every string, `clean_string_intended` leaves no whitespace other than plain
single spaces, no two adjacent whitespace characters, and no leading or
trailing whitespace, and it collapses the example to `"John Doe"`. -/
theorem C6_crash_vs_intended :
    clean_string "John\r\n \t Doe" = none ∧
      (∀ s : String,
          onlySpaceWS (clean_string_intended s).data = true ∧
          noDoubleSpace (clean_string_intended s).data = true ∧
          headNoWS (clean_string_intended s).data = true ∧
          lastNoWS (clean_string_intended s).data = true) ∧
      clean_string_intended "John\r\n \t Doe" = "John Doe" := by
  refine ⟨rfl, ?_, by decide⟩
  · intro s
    rw [clean_string_intended_data]
    set L := collapseWS (newlineToSpace (removeUnescQuotes s.data)) with hL
    have honly : onlySpaceWS L = true := collapseWSAux_onlySpace _ false
    have hnd : noDoubleSpace L = true := (collapseWSAux_noDouble _ false).1
    have hsplit : L.takeWhile isPySpace ++ stripLeft L = L :=
      List.takeWhile_append_dropWhile isPySpace L
    have honly2 : onlySpaceWS (stripLeft L) = true :=
      @onlySpaceWS_append_right (L.takeWhile isPySpace) (stripLeft L)
        (by rw [hsplit]; exact honly)
    have hnd2 : noDoubleSpace (stripLeft L) = true :=
      noDoubleSpace_append_right (L.takeWhile isPySpace) (stripLeft L)
        (by rw [hsplit]; exact hnd)
    have hdec := stripRight_append_eq (stripLeft L)
    refine ⟨onlySpaceWS_append_left (by rw [hdec]; exact honly2),
      noDoubleSpace_append_left _ _ (by rw [hdec]; exact hnd2),
      stripRight_headNoWS (headNoWS_dropWhile L),
      stripRight_lastNoWS _⟩

theorem digitChar_isDigit {m : Nat} (h : m < 10) : (Nat.digitChar m).isDigit = true := by
  interval_cases m <;> decide

theorem natStrAux_digits :
    ∀ (fuel n : Nat) (acc : List Char), (∀ c ∈ acc, c.isDigit = true) →
      ∀ c ∈ natStrAux fuel n acc, c.isDigit = true := by
  intro fuel
  induction fuel with
  | zero => intro n acc hacc c hc; exact hacc c hc
  | succ f ih =>
    intro n acc hacc c hc
    simp only [natStrAux] at hc
    split at hc
    · rcases List.mem_cons.mp hc with hc1 | hc2
      · rw [hc1]; exact digitChar_isDigit (Nat.mod_lt _ (by decide))
      · exact hacc c hc2
    · refine ih (n / 10) (Nat.digitChar (n % 10) :: acc) ?_ c hc
      intro c' hc'
      rcases List.mem_cons.mp hc' with hc1 | hc2
      · rw [hc1]; exact digitChar_isDigit (Nat.mod_lt _ (by decide))
      · exact hacc c' hc2

theorem intStr_ne_sep (i : Int) : intStr i ≠ ", " := by
  intro h
  unfold intStr at h
  split at h
  · rw [show (", " : String) = String.mk [',', ' '] from rfl] at h
    injection h with hd
    injection hd with h1 h2
    exact absurd h1 (by decide)
  · rw [show (", " : String) = String.mk [',', ' '] from rfl] at h
    injection h with hd
    have hmem : ',' ∈ natStr i.toNat := by rw [hd]; simp
    have hdig := natStrAux_digits (i.toNat + 1) i.toNat [] (by intro c hc; simp at hc) ',' hmem
    exact absurd hdig (by decide)

theorem flattenParts_obj (x : List (String × Json)) :
    flattenParts (Json.obj x) =
      (recurseObj x).map fun l => if l.getLast? = some ", " then l.dropLast else l := rfl

theorem recurseObj_append_none (ps : List (String × Json)) (k : String) (v : Json)
    (hv : recurse v = none) : recurseObj (ps ++ [(k, v)]) = none := by
  induction ps with
  | nil => simp [recurseObj, hv]
  | cons p rest ih =>
    obtain ⟨k2, v2⟩ := p
    simp only [List.cons_append, recurseObj, List.append_eq, ih]
    cases recurse v2 <;> rfl

theorem recurseObj_append_some (ps : List (String × Json)) (k : String) (v : Json)
    (a : List String) (hv : recurse v = some a) :
    ∀ l, recurseObj (ps ++ [(k, v)]) = some l →
      ∃ l₁, recurseObj ps = some l₁ ∧ l = l₁ ++ (keyToken k :: (a ++ [", "])) := by
  induction ps with
  | nil =>
    intro l hl
    have hl2 : some (keyToken k :: (a ++ (", " :: []))) = some l := by
      rw [← hl]
      simp [recurseObj, hv]
    exact ⟨[], rfl, (Option.some.inj hl2).symm⟩
  | cons p rest ih =>
    intro l hl
    obtain ⟨k2, v2⟩ := p
    simp only [List.cons_append, recurseObj, List.append_eq] at hl
    cases hv2 : recurse v2 with
    | none => rw [hv2] at hl; simp at hl
    | some a2 =>
      cases hb : recurseObj (rest ++ [(k, v)]) with
      | none => rw [hv2, hb] at hl; simp at hl
      | some b =>
        rw [hv2, hb] at hl
        have hl2 : keyToken k2 :: (a2 ++ (", " :: b)) = l := Option.some.inj hl
        obtain ⟨l₁, hl₁, hbeq⟩ := ih b hb
        refine ⟨keyToken k2 :: (a2 ++ (", " :: l₁)), ?_, ?_⟩
        · simp [recurseObj, hv2, hl₁]
        · rw [← hl2, hbeq]
          simp [List.append_assoc]

theorem flatten_last_ne_sep (ps : List (String × Json)) (k : String) (v : Json) (t : String)
    (hv : recurse v = some [t]) (hts : t ≠ ", ") :
    ∀ parts, flattenParts (Json.obj (ps ++ [(k, v)])) = some parts →
      parts.getLast? ≠ some ", " := by
  intro parts hparts
  rw [flattenParts_obj] at hparts
  cases hmap : recurseObj (ps ++ [(k, v)]) with
  | none => rw [hmap] at hparts; simp at hparts
  | some l =>
    rw [hmap] at hparts
    obtain ⟨l₁, hl₁, hleq⟩ := recurseObj_append_some ps k v [t] hv l hmap
    have hshape : l = (l₁ ++ [keyToken k, t]) ++ [", "] := by
      rw [hleq]; simp
    rw [hshape] at hparts
    have hparts2 :
        some (if ((l₁ ++ [keyToken k, t]) ++ [", "]).getLast? = some ", " then
          ((l₁ ++ [keyToken k, t]) ++ [", "]).dropLast
        else (l₁ ++ [keyToken k, t]) ++ [", "]) = some parts := hparts
    rw [List.getLast?_concat, if_pos rfl, List.dropLast_concat] at hparts2
    have hpeq : parts = l₁ ++ [keyToken k, t] := (Option.some.inj hparts2).symm
    rw [hpeq, show l₁ ++ [keyToken k, t] = (l₁ ++ [keyToken k]) ++ [t] by simp,
      List.getLast?_concat]
    intro hc
    exact hts (Option.some.inj hc)

/-- C1, amended: the pop of a trailing bare separator happens exactly once,
at the end of the whole traversal.  Consequently, for every JSON object on
which flattening completes — the missing `import re` makes it raise
`NameError` whenever a string value is present, so completion in particular
rules strings out — and whose last pair's value is atomic, the flattened
part list does not end with the separator token.  (When the last value is
itself an object — see the counterexample — one extra separator survives.) -/
theorem C1_amended_no_trailing_sep (ps : List (String × Json)) (k : String) (v : Json)
    (parts : List String) (hatom : isAtom v = true)
    (hparts : flattenParts (Json.obj (ps ++ [(k, v)])) = some parts) :
    parts.getLast? ≠ some ", " := by
  cases v with
  | null => exact flatten_last_ne_sep ps k Json.null "None" rfl (by decide) parts hparts
  | bool b =>
    cases b with
    | false =>
      exact flatten_last_ne_sep ps k (Json.bool false) "False" rfl (by decide) parts hparts
    | true =>
      exact flatten_last_ne_sep ps k (Json.bool true) "True" rfl (by decide) parts hparts
  | num n =>
    exact flatten_last_ne_sep ps k (Json.num n) (intStr n) rfl (intStr_ne_sep n) parts hparts
  | str s =>
    rw [flattenParts_obj, recurseObj_append_none ps k (Json.str s) rfl] at hparts
    simp at hparts
  | arr l => simp [isAtom] at hatom
  | obj l => simp [isAtom] at hatom

/-- C1, witness: a one-pair object with an atomic value (no string values,
so the staged traversal completes), through the amended theorem. -/
theorem C1_witness : (["a", "1"] : List String).getLast? ≠ some ", " :=
  C1_amended_no_trailing_sep [] "a" (Json.num 1) ["a", "1"] rfl rfl

end SwissRe
